import Mathlib

/-!
Shallow embedding of `video2dataset/dataloader/transform.py`
(`VideoResizer`, `video_transform`'s `apply_frame_transform`, `CutsAdder`).

Conventions of the embedding:
* Pixel values are exact rationals (`ℚ`); the only pixel arithmetic the
  code performs, `frame.astype(float) / 127.5 - 1.`, is exact in float at
  the inputs the claims consider, so `ℚ` models it faithfully there.
* All index/size arithmetic is over `ℤ`.  Python `int(round(a / b))`
  (round-half-to-even on an exact quotient) is `roundHalfEvenDiv a b`,
  `math.ceil(a / 2)` on an integer `a` is `ceilHalf a`, and Python `//`
  is `Int.fdiv`.  The tiny double-precision round-off Python's
  intermediate `float` values may carry is not modelled.
* `numpy` `self.prng.randint(lo, hi, 1).item()` is modelled by an
  explicit draw function `draw : ℤ → ℤ → ℤ` passed to the call;
  `randint` raises `ValueError` exactly when `lo >= hi`, which the
  embedding mirrors with `Except.error "ValueError"`.
* `cv2.resize` is an abstract parameter `resizeImpl`; no claim under
  verification depends on its pixel-level behaviour.
* Exceptions (`assert`, `ValueError`, `IndexError`, `TypeError`) become
  `Except.error` with the exception's name as the message.
* The concluding `.to(torch.float16)` dtype cast is a precision change
  outside the claims and is not modelled.
-/

/-- Python `round` of the exact quotient `a / b` (for `b > 0`):
round half to even.  `q = a.fdiv b` is the floor of the quotient and
`r = a - q * b` its remainder in `[0, b)`; the fractional part is `r / b`,
compared with `1/2` via `2 * r` versus `b`. -/
def roundHalfEvenDiv (a b : ℤ) : ℤ :=
  if 2 * (a - a.fdiv b * b) < b then a.fdiv b
  else if b < 2 * (a - a.fdiv b * b) then a.fdiv b + 1
  else if a.fdiv b % 2 = 0 then a.fdiv b else a.fdiv b + 1

/-- `math.ceil(a / 2)` for an integer `a`: `⌈a/2⌉ = ⌊(a+1)/2⌋`. -/
def ceilHalf (a : ℤ) : ℤ :=
  (a + 1).fdiv 2

/-- A frame: rows of pixel values (one rational per pixel; the channel
axis is irrelevant to every claim about `VideoResizer`). -/
abbrev Frame := List (List ℚ)

/-- Python list/array slicing `l[a:b]` (step 1): negative indices count
from the end, out-of-range bounds clamp. -/
def pySlice {α : Type} (l : List α) (a b : ℤ) : List α :=
  let n : ℤ := l.length
  let a' : ℤ := if a < 0 then max (n + a) 0 else min a n
  let b' : ℤ := if b < 0 then max (n + b) 0 else min b n
  (l.drop a'.toNat).take (b' - a').toNat

/-- The pixel rescale on the resize/crop path:
`frame.astype(float) / 127.5 - 1.` applied pointwise. -/
def rescalePixel (v : ℚ) : ℚ :=
  v / 127.5 - 1

/-- A resize/crop size argument: Python `int` or `[h, w]` list. -/
inductive SizeSpec
  | scalar (s : ℤ)
  | pair (h w : ℤ)
deriving DecidableEq

/-- The value held under the video key: either a Python `list` of frames
or an already-stacked array/tensor of frames (the non-list case). -/
inductive VideoVal
  | pyList (fs : List Frame)
  | pyTensor (fs : List Frame)
deriving DecidableEq

/-- The frames contained in the video value (iteration order). -/
def VideoVal.framesList : VideoVal → List Frame
  | .pyList fs => fs
  | .pyTensor fs => fs

/-- A sample as `VideoResizer` sees it: the video field, the first
entries of the `original_height`/`original_width` metadata fields
(`data[self.height_key][0].item()`), and all remaining fields, which
the transform never touches. -/
structure Sample where
  video : VideoVal
  origH : ℤ
  origW : ℤ
  rest : List (String × ℤ)
deriving DecidableEq

/-- The configuration state a constructed `VideoResizer` carries
(`self.resize_size`, `self.crop_size`, `self.random_crop`). -/
structure VideoResizer where
  resize_size : Option SizeSpec
  crop_size : Option (ℤ × ℤ)
  random_crop : Bool
deriving DecidableEq

/-- `VideoResizer.__init__`: an integer crop size `c` becomes `[c, c]`,
and `self.random_crop = random_crop and self.crop_size is not None`. -/
def VideoResizer.init (size : Option SizeSpec) (crop : Option SizeSpec)
    (random_crop : Bool) : VideoResizer :=
  let crop_size : Option (ℤ × ℤ) :=
    match crop with
    | none => none
    | some (.scalar c) => some (c, c)
    | some (.pair h w) => some (h, w)
  { resize_size := size
    crop_size := crop_size
    random_crop := random_crop && crop_size.isSome }

/-- The corner-case bump on an axis sampling bound: with
`mn = ceil(crop/2)` and `mx = dim - mn`, when `mn == mx` the upper
bound becomes `min(mx + 1, dim)`, else it stays `mx`. -/
def bumpedMax (mn mx dim : ℤ) : ℤ :=
  if mn = mx then min (mx + 1) dim else mx

/-- `VideoResizer.get_rand_reference`.  Returns `[y, x]` as a pair.
Reading `self.crop_size[0]` with `crop_size = None` would be a Python
`TypeError`; the leading `assert` raises `AssertionError`; `randint`
raises `ValueError` when its range `[lo, hi)` is empty (`lo >= hi`);
the draws happen on the (possibly bumped) per-axis bounds, `x` first. -/
def VideoResizer.get_rand_reference (R : VideoResizer) (draw : ℤ → ℤ → ℤ)
    (resize_size : Option (ℤ × ℤ)) (h w : ℤ) : Except String (ℤ × ℤ) :=
  match R.crop_size with
  | none => .error "TypeError"
  | some (ch, cw) =>
    if (match resize_size with
        | none => true
        | some (rh, rw) => decide (ch ≤ rh) && decide (cw ≤ rw)) then
      if ceilHalf cw < bumpedMax (ceilHalf cw) (w - ceilHalf cw) w then
        if ceilHalf ch < bumpedMax (ceilHalf ch) (h - ceilHalf ch) h then
          .ok (draw (ceilHalf ch) (bumpedMax (ceilHalf ch) (h - ceilHalf ch) h),
               draw (ceilHalf cw) (bumpedMax (ceilHalf cw) (w - ceilHalf cw) w))
        else .error "ValueError"
      else .error "ValueError"
    else .error "AssertionError"

/-- `VideoResizer.get_resize_size`.  For a scalar size `s`,
`f = s / min(orig_h, orig_w)` and the new size is
`[int(round(orig_h * f)), int(round(orig_w * f))]`, modelled exactly as
`roundHalfEvenDiv (orig * s) m`.  (Python raises `ZeroDivisionError`
when `min(orig_h, orig_w) = 0`; theorems assume a positive minimum.) -/
def VideoResizer.get_resize_size (R : VideoResizer) (frame : Frame)
    (origH origW : ℤ) : Option (ℤ × ℤ) × (ℤ × ℤ) :=
  match R.resize_size with
  | some (.scalar s) =>
    let m := min origH origW
    let rs := (roundHalfEvenDiv (origH * s) m, roundHalfEvenDiv (origW * s) m)
    (some rs, rs)
  | some (.pair rh rw) => (some (rh, rw), (rh, rw))
  | none => (none, ((frame.length : ℤ), ((frame.headD []).length : ℤ)))

/-- `VideoResizer.get_reference_frame`: random reference when
`self.random_crop`, else the center `[h // 2, w // 2]`. -/
def VideoResizer.get_reference_frame (R : VideoResizer) (draw : ℤ → ℤ → ℤ)
    (resize_size : Option (ℤ × ℤ)) (h w : ℤ) : Except String (ℤ × ℤ) :=
  if R.random_crop then R.get_rand_reference draw resize_size h w
  else .ok (h.fdiv 2, w.fdiv 2)

/-- The geometric part of the per-frame loop body in
`VideoResizer.__call__`: optional `cv2.resize` to `resize_size`, then
optional crop `frame[y0 : y0 + ch, x0 : x0 + cw]` with
`x0 = reference[1] - int(round(cw / 2))` and
`y0 = reference[0] - int(round(ch / 2))`. -/
def VideoResizer.cropResizeFrame (R : VideoResizer)
    (resizeImpl : (ℤ × ℤ) → Frame → Frame) (resize_size : Option (ℤ × ℤ))
    (reference : ℤ × ℤ) (frame : Frame) : Frame :=
  let frame1 :=
    match resize_size with
    | some rs => resizeImpl rs frame
    | none => frame
  match R.crop_size with
  | some (ch, cw) =>
    let x0 := reference.2 - roundHalfEvenDiv cw 2
    let y0 := reference.1 - roundHalfEvenDiv ch 2
    (pySlice frame1 y0 (y0 + ch)).map (fun row => pySlice row x0 (x0 + cw))
  | none => frame1

/-- The whole per-frame loop body: geometry, then the pixel rescale
`frame.astype(float) / 127.5 - 1.` over every pixel. -/
def VideoResizer.transformFrame (R : VideoResizer)
    (resizeImpl : (ℤ × ℤ) → Frame → Frame) (resize_size : Option (ℤ × ℤ))
    (reference : ℤ × ℤ) (frame : Frame) : Frame :=
  (R.cropResizeFrame resizeImpl resize_size reference frame).map
    (List.map rescalePixel)

/-- The no-op path's `torch.from_numpy(np.stack(...))`: a Python list of
frames becomes a stacked tensor with the frame values unchanged; any
non-list value is left as it is. -/
def stackIfList : VideoVal → VideoVal
  | .pyList fs => .pyTensor fs
  | v => v

/-- `VideoResizer.__call__`.  The video field is always present in a
`Sample`, so the `KeyError` branch is unreachable in the model;
`frames[0]` on an empty frame sequence is Python `IndexError`.  The
source binds `resize_size, (h, w)` and `reference` once before the
frame loop; here the one `get_resize_size` value is written out as a
repeated pure expression, and `reference` is the one match binder. -/
def VideoResizer.call (R : VideoResizer)
    (resizeImpl : (ℤ × ℤ) → Frame → Frame) (draw : ℤ → ℤ → ℤ)
    (data : Sample) : Except String Sample :=
  if R.crop_size = none ∧ R.resize_size = none then
    .ok { data with video := stackIfList data.video }
  else
    match data.video.framesList with
    | [] => .error "IndexError"
    | f0 :: _ =>
      match R.get_reference_frame draw
          (R.get_resize_size f0 data.origH data.origW).1
          (R.get_resize_size f0 data.origH data.origW).2.1
          (R.get_resize_size f0 data.origH data.origW).2.2 with
      | .error e => .error e
      | .ok reference =>
        .ok { data with video :=
          (VideoVal.pyTensor (data.video.framesList.map
            (R.transformFrame resizeImpl
              (R.get_resize_size f0 data.origH data.origW).1 reference))) }

/-! ### `CutsAdder` -/

/-- A Python value held in a sample dict: a leaf, or a nested dict. -/
inductive PyVal
  | base (n : ℤ)
  | dict (entries : List (String × PyVal))

/-- A Python dict as an ordered association list (keys unique). -/
abbrev PyDict := List (String × PyVal)

/-- First binding of `k`, when present (`sample[k]`). -/
def dictGet (d : PyDict) (k : String) : Option PyVal :=
  (d.find? (fun p => p.1 = k)).map (·.2)

/-- `k in sample`. -/
def dictHas (d : PyDict) (k : String) : Bool :=
  (dictGet d k).isSome

/-- `sample[k] = v`: replace in place when the key exists (Python dicts
keep insertion order), else append. -/
def dictSet (d : PyDict) (k : String) (v : PyVal) : PyDict :=
  if dictHas d k then d.map (fun p => if p.1 = k then (k, v) else p)
  else d ++ [(k, v)]

/-- `del sample[k]`. -/
def dictDel (d : PyDict) (k : String) : PyDict :=
  d.filter (fun p => p.1 ≠ k)

/-- `CutsAdder` configuration. -/
structure CutsAdder where
  cuts_key : String
  video_key : String

/-- `CutsAdder.__call__`, exactly as written in the source: both
`assert`s, then `sample[video_key] = {video_key: sample[video_key],
cuts_key: sample[cuts_key]}`, then `del sample[self.video_key]`. -/
def CutsAdder.call (C : CutsAdder) (sample : PyDict) : Except String PyDict :=
  if dictHas sample C.cuts_key = false then .error "AssertionError"
  else if dictHas sample C.video_key = false then .error "AssertionError"
  else
    let nested : PyVal :=
      .dict [(C.video_key, (dictGet sample C.video_key).getD (.base 0)),
             (C.cuts_key, (dictGet sample C.cuts_key).getD (.base 0))]
    .ok (dictDel (dictSet sample C.video_key nested) C.video_key)

/-! ### `video_transform`'s temporal sampling and padding -/

/-- Structural helper for Python slicing `l[::k]`: `c` counts the
elements still to skip before the next kept element. -/
def everyNthAux {α : Type} (k : ℕ) : ℕ → List α → List α
  | _, [] => []
  | 0, a :: rest => a :: everyNthAux k (k - 1) rest
  | Nat.succ c, _ :: rest => everyNthAux k c rest

/-- Python `video[::k]` for stride `k ≥ 1`: every `k`-th element
starting at index 0. -/
def everyNth {α : Type} (k : ℕ) (l : List α) : List α :=
  everyNthAux k 0 l

/-- `video[::take_every_nth][:n_frames]`. -/
def tempSubsample {α : Type} (take_every_nth n_frames : ℕ)
    (video : List α) : List α :=
  (everyNth take_every_nth video).take n_frames

/-- A zero frame of the same shape as `f` (`torch.zeros` of
`video.shape[1:]`). -/
def zerosLike (f : Frame) : Frame :=
  f.map (fun row => row.map (fun _ => 0))

/-- The body of `apply_frame_transform` (the closure `video_transform`
returns): temporal subsample, truncate to `n_frames`, zero-pad at the
end up to `n_frames` when short, then apply the per-frame photometric
pipeline `frame_transform` (abstract here: `ToPILImage`, crops,
`Normalize`, ...) to every frame and stack. -/
def apply_frame_transform (frame_transform : Frame → Frame)
    (n_frames take_every_nth : ℕ) (video : List Frame) : List Frame :=
  let v := tempSubsample take_every_nth n_frames video
  let padded :=
    if v.length < n_frames then
      v ++ List.replicate (n_frames - v.length) (zerosLike (v.headD []))
    else v
  padded.map frame_transform

example : everyNth 2 (List.range 10) = [0, 2, 4, 6, 8] := by decide
example : tempSubsample 2 5 (List.range 20) = [0, 2, 4, 6, 8] := by decide
example : roundHalfEvenDiv 5 2 = 2 := by decide
example : roundHalfEvenDiv 7 2 = 4 := by decide
example : ceilHalf 3 = 2 := by decide
example : pySlice [0, 1, 2, 3] (-1 : ℤ) 2 = ([] : List ℕ) := by decide

/-! ### Claims -/

/-- C2 (code-bug evidence): on a sample holding both the cuts key and the
video key, `CutsAdder.__call__` builds the nested mapping under the video
key but then executes `del sample[self.video_key]`, deleting the video key
(and with it the nested mapping it just stored) while leaving the
standalone cuts key in place.  The spec (and the dead store it implies)
says the cuts key should have been deleted instead. -/
theorem cutsAdder_deletes_video_key_keeps_cuts_key :
    CutsAdder.call ⟨"cuts", "mp4"⟩ [("mp4", PyVal.base 1), ("cuts", PyVal.base 2)] =
      Except.ok [("cuts", PyVal.base 2)] := rfl

/-- C4: with neither resize nor crop configured, `VideoResizer.__call__`
returns the sample with a list-of-frames video stacked into a tensor with
the frame values unchanged, a non-list video value left exactly as it is,
and every other field of the sample untouched. -/
theorem noop_path_is_identity (R : VideoResizer)
    (ri : (ℤ × ℤ) → Frame → Frame) (draw : ℤ → ℤ → ℤ) (data : Sample)
    (hc : R.crop_size = none) (hr : R.resize_size = none) :
    R.call ri draw data = Except.ok { data with video := stackIfList data.video } ∧
    (∀ fs : List Frame, stackIfList (VideoVal.pyList fs) = VideoVal.pyTensor fs) ∧
    (∀ fs : List Frame, stackIfList (VideoVal.pyTensor fs) = VideoVal.pyTensor fs) := by
  refine ⟨?_, fun fs => rfl, fun fs => rfl⟩
  unfold VideoResizer.call
  rw [if_pos ⟨hc, hr⟩]

/-- Instance of `noop_path_is_identity` at a concrete sample: the frames
are stacked unchanged and the metadata fields survive. -/
theorem noop_path_is_identity_witness :
    VideoResizer.call ⟨none, none, false⟩ (fun _ f => f) (fun lo _ => lo)
        ⟨VideoVal.pyList [[[5]]], 7, 9, [("meta", 3)]⟩ =
      Except.ok { (⟨VideoVal.pyList [[[5]]], 7, 9, [("meta", 3)]⟩ : Sample) with
        video := stackIfList (VideoVal.pyList [[[5]]]) } ∧
    (∀ fs : List Frame, stackIfList (VideoVal.pyList fs) = VideoVal.pyTensor fs) ∧
    (∀ fs : List Frame, stackIfList (VideoVal.pyTensor fs) = VideoVal.pyTensor fs) :=
  noop_path_is_identity ⟨none, none, false⟩ (fun _ f => f) (fun lo _ => lo)
    ⟨VideoVal.pyList [[[5]]], 7, 9, [("meta", 3)]⟩ rfl rfl

/-- C10: constructed without a crop size, a `VideoResizer` with
`random_crop=True` has the flag coerced off at construction and behaves
exactly like one with `random_crop=False`, for every sample and every
random source (no draw ever occurs). -/
theorem random_crop_without_crop_size_inert (size : Option SizeSpec)
    (ri : (ℤ × ℤ) → Frame → Frame) (d1 d2 : ℤ → ℤ → ℤ) (data : Sample) :
    (VideoResizer.init size none true).random_crop = false ∧
    VideoResizer.call (VideoResizer.init size none true) ri d1 data =
      VideoResizer.call (VideoResizer.init size none false) ri d2 data := by
  refine ⟨rfl, ?_⟩
  obtain ⟨v, oh, ow, rest⟩ := data
  show VideoResizer.call ⟨size, none, false⟩ ri d1 ⟨v, oh, ow, rest⟩ =
    VideoResizer.call ⟨size, none, false⟩ ri d2 ⟨v, oh, ow, rest⟩
  cases v with
  | pyList fs =>
    cases size with
    | none => rfl
    | some s => cases s <;> cases fs <;> rfl
  | pyTensor fs =>
    cases size with
    | none => rfl
    | some s => cases s <;> cases fs <;> rfl

/-- Indexing law of the slicing helper: element `i` of
`everyNthAux k c l` is element `c + k * i` of `l` (stride `k ≥ 1`). -/
theorem everyNthAux_getElem {α : Type} (k : ℕ) (hk : 1 ≤ k) :
    ∀ (l : List α) (c i : ℕ), (everyNthAux k c l)[i]? = l[c + k * i]? := by
  intro l
  induction l with
  | nil => intro c i; cases c <;> simp [everyNthAux]
  | cons a rest ih =>
    intro c i
    cases c with
    | zero =>
      cases i with
      | zero => simp [everyNthAux]
      | succ j =>
        have h2 : k * (j + 1) = k * j + k := by ring
        have h3 : 0 + k * (j + 1) = (k - 1 + k * j) + 1 := by omega
        simp only [everyNthAux, List.getElem?_cons_succ]
        rw [h3, List.getElem?_cons_succ, ih (k - 1) j]
    | succ c' =>
      have h3 : (c' + 1) + k * i = (c' + k * i) + 1 := by omega
      simp only [everyNthAux]
      rw [h3, List.getElem?_cons_succ, ih c' i]

/-- C7: the temporal sampler keeps every `take_every_nth`-th frame
starting at index 0 and truncates to the first `n_frames`; concretely,
20 frames with stride 2 and `n_frames = 5` select exactly the original
indices `[0, 2, 4, 6, 8]`. -/
theorem temporal_sampler_stride_then_truncate {α : Type} (k n : ℕ)
    (hk : 1 ≤ k) (l : List α) :
    (∀ i : ℕ, (tempSubsample k n l)[i]? = if i < n then l[k * i]? else none) ∧
    tempSubsample 2 5 (List.range 20) = [0, 2, 4, 6, 8] := by
  constructor
  · intro i
    unfold tempSubsample everyNth
    by_cases hi : i < n
    · rw [if_pos hi, List.getElem?_take_of_lt hi, everyNthAux_getElem k hk l 0 i,
        Nat.zero_add]
    · rw [if_neg hi]
      apply List.getElem?_eq_none
      exact le_trans (List.length_take_le n _) (Nat.le_of_not_lt hi)
  · decide

/-- Instance of `temporal_sampler_stride_then_truncate` at stride 2,
`n_frames = 5`, on 20 frames. -/
theorem temporal_sampler_witness :
    (∀ i : ℕ, (tempSubsample 2 5 (List.range 20))[i]? =
      if i < 5 then (List.range 20)[2 * i]? else none) ∧
    tempSubsample 2 5 (List.range 20) = [0, 2, 4, 6, 8] :=
  temporal_sampler_stride_then_truncate 2 5 (by decide) (List.range 20)

/-- C6: after subsampling with the stride and truncating to `n_frames`,
a short clip is zero-padded at the end to exactly `n_frames` frames, the
padding happens before the per-frame photometric pipeline
`frame_transform` (so padded frames pass through the same pipeline as
real frames), and the output always has exactly `n_frames` frames. -/
theorem temporal_pad_before_pipeline (frame_transform : Frame → Frame)
    (n k : ℕ) (video : List Frame) :
    (apply_frame_transform frame_transform n k video).length = n ∧
    ((tempSubsample k n video).length < n →
      apply_frame_transform frame_transform n k video =
        (tempSubsample k n video ++
          List.replicate (n - (tempSubsample k n video).length)
            (zerosLike ((tempSubsample k n video).headD []))).map
          frame_transform) := by
  constructor
  · unfold apply_frame_transform
    by_cases hlen : (tempSubsample k n video).length < n
    · simp only [if_pos hlen, List.length_map, List.length_append,
        List.length_replicate]
      omega
    · have hle : (tempSubsample k n video).length ≤ n :=
        List.length_take_le n _
      simp only [if_neg hlen, List.length_map]
      omega
  · intro hlt
    simp only [apply_frame_transform]
    rw [if_pos hlt]

/-- Instance of `temporal_pad_before_pipeline`: 3 one-pixel frames,
`n_frames = 5`, stride 1 — the output has 5 frames and the last two are
the zero frame passed through the pipeline. -/
theorem temporal_pad_witness :
    (apply_frame_transform (fun f => f) 5 1 [[[1]], [[2]], [[3]]]).length = 5 ∧
    apply_frame_transform (fun f => f) 5 1 [[[1]], [[2]], [[3]]] =
      (tempSubsample 1 5 [[[1]], [[2]], [[3]]] ++
        List.replicate (5 - (tempSubsample 1 5 [[[1]], [[2]], [[3]]]).length)
          (zerosLike ((tempSubsample 1 5 [[[1]], [[2]], [[3]]]).headD []))).map
        (fun f => f) :=
  ⟨(temporal_pad_before_pipeline (fun f => f) 5 1 [[[1]], [[2]], [[3]]]).1,
   (temporal_pad_before_pipeline (fun f => f) 5 1 [[[1]], [[2]], [[3]]]).2
     (by decide)⟩

/-- C9 counterexample: the rescale sends the admissible input 255 to
exactly 1, which is not in the half-open interval `[-1, 1)` the claim
names as the codomain. -/
theorem rescale_at_255_reaches_one :
    rescalePixel 255 = 1 ∧ ¬ rescalePixel 255 < 1 := by
  constructor <;> norm_num [rescalePixel]

/-- C9 (amended): on the resize/crop path, every pixel of every frame is
rescaled by the affine map `out = v / 127.5 - 1`, which maps the domain
`[0, 255]` into the closed interval `[-1, 1]`: 0 to -1, 127.5 to 0, and
255 to exactly 1. -/
theorem rescale_affine_map_into_closed_interval :
    (∀ v : ℚ, rescalePixel v = v / 127.5 - 1) ∧
    (∀ (R : VideoResizer) (ri : (ℤ × ℤ) → Frame → Frame)
        (rs : Option (ℤ × ℤ)) (ref : ℤ × ℤ) (f : Frame),
      R.transformFrame ri rs ref f =
        (R.cropResizeFrame ri rs ref f).map (List.map rescalePixel)) ∧
    (∀ v : ℚ, 0 ≤ v → v ≤ 255 → -1 ≤ rescalePixel v ∧ rescalePixel v ≤ 1) ∧
    rescalePixel 0 = -1 ∧ rescalePixel (255 / 2) = 0 ∧ rescalePixel 255 = 1 := by
  refine ⟨fun v => rfl, fun R ri rs ref f => rfl, ?_, by norm_num [rescalePixel],
    by norm_num [rescalePixel], by norm_num [rescalePixel]⟩
  intro v h0 h255
  unfold rescalePixel
  have hpos : (0 : ℚ) < 127.5 := by norm_num
  constructor
  · have : 0 ≤ v / 127.5 := div_nonneg h0 (le_of_lt hpos)
    linarith
  · have : v / 127.5 ≤ 2 := by
      rw [div_le_iff₀ hpos]
      linarith
    linarith

/-- Instance of `rescale_affine_map_into_closed_interval` at pixel value
51: the rescaled value lies in `[-1, 1]`. -/
theorem rescale_bounds_witness :
    -1 ≤ rescalePixel 51 ∧ rescalePixel 51 ≤ 1 :=
  rescale_affine_map_into_closed_interval.2.2.1 51 (by norm_num) (by norm_num)

/-- `r` is the round-half-to-even rounding of the real value `q`: it is
within 1/2 of `q`, and at an exact half it is the even neighbour. -/
def IsRoundHalfEven (q : ℚ) (r : ℤ) : Prop :=
  |q - r| < 1/2 ∨ (|q - r| = 1/2 ∧ r % 2 = 0)

/-- `roundHalfEvenDiv` really is round-half-to-even of the exact
quotient, for a positive divisor. -/
theorem roundHalfEvenDiv_spec (a b : ℤ) (hb : 0 < b) :
    IsRoundHalfEven ((a : ℚ) / (b : ℚ)) (roundHalfEvenDiv a b) := by
  have hbq : (0 : ℚ) < (b : ℚ) := by exact_mod_cast hb
  have hbq0 : (b : ℚ) ≠ 0 := ne_of_gt hbq
  unfold roundHalfEvenDiv IsRoundHalfEven
  set q := a.fdiv b with hq
  set r := a - q * b with hrdef
  have hfd : q = a / b := Int.fdiv_eq_ediv a (le_of_lt hb)
  have hqb : q * b = b * (a / b) := by rw [hfd]; ring
  have hmod := Int.emod_def a b
  have hmn := Int.emod_nonneg a (ne_of_gt hb)
  have hml := Int.emod_lt_of_pos a hb
  have hr0 : 0 ≤ r := by omega
  have hrb : r < b := by omega
  have hr0q : (0 : ℚ) ≤ (r : ℚ) := by exact_mod_cast hr0
  have hrbq : (r : ℚ) < (b : ℚ) := by exact_mod_cast hrb
  have habs : (a : ℚ) / (b : ℚ) - (q : ℚ) = (r : ℚ) / (b : ℚ) := by
    have h1 : ((r : ℤ) : ℚ) = (a : ℚ) - (q : ℚ) * (b : ℚ) := by
      rw [hrdef]; push_cast; ring
    rw [h1, sub_div, mul_div_cancel_right₀ _ hbq0]
  have habs1 : (a : ℚ) / (b : ℚ) - ((q + 1 : ℤ) : ℚ) =
      ((r : ℚ) - (b : ℚ)) / (b : ℚ) := by
    have hc : ((q + 1 : ℤ) : ℚ) = (q : ℚ) + 1 := by push_cast; ring
    rw [hc, sub_div, div_self hbq0]
    linarith [habs]
  split
  · -- `2 * r < b`: keep the floor, distance `r / b < 1/2`.
    rename_i h1
    left
    rw [habs, abs_of_nonneg (div_nonneg hr0q hbq.le), div_lt_iff₀ hbq]
    have h1q : (2 : ℚ) * (r : ℚ) < (b : ℚ) := by exact_mod_cast h1
    linarith
  · rename_i h1
    split
    · -- `b < 2 * r`: round up, distance `(b - r) / b < 1/2`.
      rename_i h2
      left
      have hneg : ((r : ℚ) - (b : ℚ)) / (b : ℚ) =
          -(((b : ℚ) - (r : ℚ)) / (b : ℚ)) := by ring
      rw [habs1, hneg, abs_neg,
        abs_of_nonneg (div_nonneg (by linarith) hbq.le), div_lt_iff₀ hbq]
      have h2q : (b : ℚ) < 2 * (r : ℚ) := by exact_mod_cast h2
      linarith
    · rename_i h2
      have h2r : 2 * r = b := by omega
      have h2rq : 2 * (r : ℚ) = (b : ℚ) := by exact_mod_cast h2r
      split
      · -- floor even: keep it, distance exactly 1/2.
        rename_i heven
        right
        refine ⟨?_, heven⟩
        rw [habs, abs_of_nonneg (div_nonneg hr0q hbq.le), div_eq_iff hbq0]
        linarith
      · -- floor odd: its successor is even, distance exactly 1/2.
        rename_i hodd
        right
        constructor
        · have hneg : ((r : ℚ) - (b : ℚ)) / (b : ℚ) =
              -(((b : ℚ) - (r : ℚ)) / (b : ℚ)) := by ring
          rw [habs1, hneg, abs_neg,
            abs_of_nonneg (div_nonneg (by linarith) hbq.le), div_eq_iff hbq0]
          linarith
        · omega

/-- C8: with a scalar resize size `s`, the computed resize size is the
pair of round-half-to-even roundings of `orig * (s / min(orig_h,
orig_w))`, and on original size (100, 200) with `s = 50` it is exactly
(50, 100). -/
theorem scalar_resize_size_formula (R : VideoResizer) (frame : Frame)
    (s origH origW : ℤ) (hR : R.resize_size = some (SizeSpec.scalar s))
    (hm : 0 < min origH origW) :
    (∃ r1 r2 : ℤ,
      R.get_resize_size frame origH origW = (some (r1, r2), (r1, r2)) ∧
      IsRoundHalfEven ((origH : ℚ) * ((s : ℚ) / ((min origH origW : ℤ) : ℚ))) r1 ∧
      IsRoundHalfEven ((origW : ℚ) * ((s : ℚ) / ((min origH origW : ℤ) : ℚ))) r2) ∧
    VideoResizer.get_resize_size ⟨some (SizeSpec.scalar 50), none, false⟩ [] 100 200 =
      (some (50, 100), (50, 100)) := by
  constructor
  · refine ⟨roundHalfEvenDiv (origH * s) (min origH origW),
      roundHalfEvenDiv (origW * s) (min origH origW), ?_, ?_, ?_⟩
    · unfold VideoResizer.get_resize_size
      rw [hR]
    · have h := roundHalfEvenDiv_spec (origH * s) (min origH origW) hm
      have hcast : (((origH * s : ℤ)) : ℚ) / ((min origH origW : ℤ) : ℚ) =
          (origH : ℚ) * ((s : ℚ) / ((min origH origW : ℤ) : ℚ)) := by
        push_cast
        ring
      rwa [hcast] at h
    · have h := roundHalfEvenDiv_spec (origW * s) (min origH origW) hm
      have hcast : (((origW * s : ℤ)) : ℚ) / ((min origH origW : ℤ) : ℚ) =
          (origW : ℚ) * ((s : ℚ) / ((min origH origW : ℤ) : ℚ)) := by
        push_cast
        ring
      rwa [hcast] at h
  · decide

/-- Instance of `scalar_resize_size_formula` at original size (100, 200)
and scalar size 50. -/
theorem scalar_resize_size_witness :
    (∃ r1 r2 : ℤ,
      VideoResizer.get_resize_size ⟨some (SizeSpec.scalar 50), none, false⟩ [] 100 200 =
        (some (r1, r2), (r1, r2)) ∧
      IsRoundHalfEven ((100 : ℚ) * ((50 : ℚ) / ((min 100 200 : ℤ) : ℚ))) r1 ∧
      IsRoundHalfEven ((200 : ℚ) * ((50 : ℚ) / ((min 100 200 : ℤ) : ℚ))) r2) ∧
    VideoResizer.get_resize_size ⟨some (SizeSpec.scalar 50), none, false⟩ [] 100 200 =
      (some (50, 100), (50, 100)) :=
  scalar_resize_size_formula ⟨some (SizeSpec.scalar 50), none, false⟩ [] 50 100 200
    rfl (by decide)

/-- C3 counterexample: with pair resize size (2, 2), crop size (3, 3)
(crop exceeds resize on both axes) and *center* cropping, the call
succeeds — no assertion fires, because the precondition check lives only
in `get_rand_reference`, which center cropping never reaches. -/
theorem center_crop_oversize_call_succeeds :
    (VideoResizer.call
      (VideoResizer.init (some (SizeSpec.pair 2 2)) (some (SizeSpec.pair 3 3)) false)
      (fun _ f => f) (fun lo _ => lo)
      ⟨VideoVal.pyList [[[0]]], 10, 10, []⟩).isOk = true := by decide

/-- The `assert` in `get_rand_reference` fires whenever the crop size
exceeds the (pair) resize size on some axis. -/
theorem get_rand_reference_assert_fails (R : VideoResizer) (draw : ℤ → ℤ → ℤ)
    (rh rw h w ch cw : ℤ) (hc : R.crop_size = some (ch, cw))
    (hex : rh < ch ∨ rw < cw) :
    R.get_rand_reference draw (some (rh, rw)) h w = Except.error "AssertionError" := by
  have hb : (decide (ch ≤ rh) && decide (cw ≤ rw)) = false := by
    rcases hex with h1 | h1
    · have : ¬ ch ≤ rh := by omega
      simp [this]
    · have : ¬ cw ≤ rw := by omega
      simp [this]
  simp only [VideoResizer.get_rand_reference, hc, hb]
  rfl

/-- C3 (amended): when a pair resize size and a crop size are both
configured and the crop exceeds the resize on some axis, the call fails
with the assertion error *when random cropping is selected*; with center
cropping the precondition is never checked and the call proceeds
(see `center_crop_oversize_call_succeeds`). -/
theorem crop_exceeding_resize_asserts_under_random_crop (R : VideoResizer)
    (ri : (ℤ × ℤ) → Frame → Frame) (draw : ℤ → ℤ → ℤ) (data : Sample)
    (rh rw ch cw : ℤ) (hr : R.resize_size = some (SizeSpec.pair rh rw))
    (hc : R.crop_size = some (ch, cw)) (hrc : R.random_crop = true)
    (hex : rh < ch ∨ rw < cw) (hne : data.video.framesList ≠ []) :
    R.call ri draw data = Except.error "AssertionError" := by
  have hcfg : ¬(R.crop_size = none ∧ R.resize_size = none) := by
    rw [hc]
    simp
  unfold VideoResizer.call
  rw [if_neg hcfg]
  split
  · rename_i heq
    exact absurd heq hne
  · rename_i f0 rest heq
    have hrs : R.get_resize_size f0 data.origH data.origW =
        (some (rh, rw), (rh, rw)) := by
      unfold VideoResizer.get_resize_size
      rw [hr]
    have href : R.get_reference_frame draw
        (R.get_resize_size f0 data.origH data.origW).1
        (R.get_resize_size f0 data.origH data.origW).2.1
        (R.get_resize_size f0 data.origH data.origW).2.2 =
        Except.error "AssertionError" := by
      rw [hrs]
      unfold VideoResizer.get_reference_frame
      rw [hrc]
      simp only [if_true]
      exact get_rand_reference_assert_fails R draw rh rw rh rw ch cw hc hex
    split
    · rename_i e herr
      rw [href] at herr
      injection herr with hmsg
      rw [hmsg]
    · rename_i ref hrefok
      rw [href] at hrefok
      exact absurd hrefok (by simp)

/-- Instance of `crop_exceeding_resize_asserts_under_random_crop`: pair
resize (2, 2), crop (3, 3), random crop — the call raises the assertion
error. -/
theorem crop_exceeding_resize_asserts_witness :
    VideoResizer.call
      (VideoResizer.init (some (SizeSpec.pair 2 2)) (some (SizeSpec.pair 3 3)) true)
      (fun _ f => f) (fun lo _ => lo)
      ⟨VideoVal.pyList [[[0]]], 10, 10, []⟩ = Except.error "AssertionError" :=
  crop_exceeding_resize_asserts_under_random_crop
    (VideoResizer.init (some (SizeSpec.pair 2 2)) (some (SizeSpec.pair 3 3)) true)
    (fun _ f => f) (fun lo _ => lo) ⟨VideoVal.pyList [[[0]]], 10, 10, []⟩
    2 2 3 3 rfl rfl rfl (Or.inl (by decide)) (by decide)

/-- A value drawn inside `[mn, bumpedMax mn (dim - mn) dim)` lies in the
closed interval `[mn, dim - mn]`, bump or no bump. -/
theorem bumped_range_subset (mn dim v : ℤ) (hv1 : mn ≤ v)
    (hv2 : v < bumpedMax mn (dim - mn) dim) : mn ≤ v ∧ v ≤ dim - mn := by
  unfold bumpedMax at hv2
  split at hv2 <;> omega

/-- C5: whenever random-crop reference sampling succeeds, the returned
reference `[y, x]` is exactly the pair of draws over the (possibly
bumped) half-open per-axis ranges, and each coordinate lies in
`[ceil(crop/2), dim - ceil(crop/2)]` — also in the degenerate bumped
case. -/
theorem rand_reference_in_bounds (R : VideoResizer) (draw : ℤ → ℤ → ℤ)
    (rs : Option (ℤ × ℤ)) (h w ch cw y x : ℤ)
    (hc : R.crop_size = some (ch, cw))
    (hdraw : ∀ lo hi : ℤ, lo < hi → lo ≤ draw lo hi ∧ draw lo hi < hi)
    (hok : R.get_rand_reference draw rs h w = Except.ok (y, x)) :
    (x = draw (ceilHalf cw) (bumpedMax (ceilHalf cw) (w - ceilHalf cw) w) ∧
     y = draw (ceilHalf ch) (bumpedMax (ceilHalf ch) (h - ceilHalf ch) h)) ∧
    (ceilHalf cw ≤ x ∧ x ≤ w - ceilHalf cw) ∧
    (ceilHalf ch ≤ y ∧ y ≤ h - ceilHalf ch) := by
  simp only [VideoResizer.get_rand_reference, hc] at hok
  split at hok
  · split at hok
    · split at hok
      · simp only [Except.ok.injEq, Prod.mk.injEq] at hok
        obtain ⟨hy, hx⟩ := hok
        rename_i hcw hch
        have hxb := hdraw _ _ hcw
        have hyb := hdraw _ _ hch
        rw [hx] at hxb
        rw [hy] at hyb
        refine ⟨⟨hx.symm, hy.symm⟩, ?_, ?_⟩
        · exact bumped_range_subset _ _ _ hxb.1 hxb.2
        · exact bumped_range_subset _ _ _ hyb.1 hyb.2
      · exact absurd hok (by simp)
    · exact absurd hok (by simp)
  · exact absurd hok (by simp)

/-- Instance of `rand_reference_in_bounds`: crop (2, 2) on a 10 by 10
frame with the draw returning the lower bound. -/
theorem rand_reference_in_bounds_witness :
    ((1 : ℤ) = (fun lo _ => lo : ℤ → ℤ → ℤ) (ceilHalf 2)
        (bumpedMax (ceilHalf 2) (10 - ceilHalf 2) 10) ∧
     (1 : ℤ) = (fun lo _ => lo : ℤ → ℤ → ℤ) (ceilHalf 2)
        (bumpedMax (ceilHalf 2) (10 - ceilHalf 2) 10)) ∧
    (ceilHalf 2 ≤ 1 ∧ 1 ≤ 10 - ceilHalf 2) ∧
    (ceilHalf 2 ≤ 1 ∧ 1 ≤ 10 - ceilHalf 2) :=
  rand_reference_in_bounds ⟨none, some (2, 2), true⟩ (fun lo _ => lo) none
    10 10 2 2 1 1 rfl (fun lo _ hlt => ⟨le_refl lo, hlt⟩) rfl

/-- C1: on the resize and/or crop path, a successful call computes one
resize size and one reference point before the frame loop and transforms
*every* frame of the clip with those same two values: the output video
is exactly the map of one fixed `transformFrame R ri rs ref` over the
input frames, with `rs` the once-computed resize size and `ref` the
once-computed reference point. -/
theorem same_clip_consistency (R : VideoResizer)
    (ri : (ℤ × ℤ) → Frame → Frame) (draw : ℤ → ℤ → ℤ) (data out : Sample)
    (hcfg : ¬(R.crop_size = none ∧ R.resize_size = none))
    (hok : R.call ri draw data = Except.ok out) :
    ∃ rs ref,
      rs = (R.get_resize_size (data.video.framesList.headD [])
              data.origH data.origW).1 ∧
      R.get_reference_frame draw rs
          (R.get_resize_size (data.video.framesList.headD [])
            data.origH data.origW).2.1
          (R.get_resize_size (data.video.framesList.headD [])
            data.origH data.origW).2.2 = Except.ok ref ∧
      out.video = VideoVal.pyTensor
        (data.video.framesList.map (R.transformFrame ri rs ref)) := by
  unfold VideoResizer.call at hok
  rw [if_neg hcfg] at hok
  split at hok
  · exact absurd hok (by simp)
  · rename_i f0 rest heq
    split at hok
    · exact absurd hok (by simp)
    · rename_i reference href
      refine ⟨(R.get_resize_size f0 data.origH data.origW).1, reference, ?_, ?_, ?_⟩
      · rw [heq, List.headD_cons]
      · rw [heq, List.headD_cons]
        exact href
      · injection hok with hout
        rw [← hout]

/-- Instance of `same_clip_consistency`: crop-only configuration on a
clip with one zero-height frame; the output is the map of one fixed
per-frame transform over the input frames. -/
theorem same_clip_consistency_witness :
    ∃ rs ref,
      rs = ((VideoResizer.init none (some (SizeSpec.scalar 1)) false).get_resize_size
              ([] : Frame) 4 4).1 ∧
      (VideoResizer.init none (some (SizeSpec.scalar 1)) false).get_reference_frame
          (fun lo _ => lo) rs
          ((VideoResizer.init none (some (SizeSpec.scalar 1)) false).get_resize_size
            ([] : Frame) 4 4).2.1
          ((VideoResizer.init none (some (SizeSpec.scalar 1)) false).get_resize_size
            ([] : Frame) 4 4).2.2 = Except.ok ref ∧
      VideoVal.pyTensor [([] : Frame)] = VideoVal.pyTensor
        ([([] : Frame)].map
          ((VideoResizer.init none (some (SizeSpec.scalar 1)) false).transformFrame
            (fun _ f => f) rs ref)) :=
  same_clip_consistency (VideoResizer.init none (some (SizeSpec.scalar 1)) false)
    (fun _ f => f) (fun lo _ => lo)
    ⟨VideoVal.pyList [([] : Frame)], 4, 4, []⟩
    ⟨VideoVal.pyTensor [([] : Frame)], 4, 4, []⟩ (by decide) rfl
